import Mathlib

/-!
Shallow embedding of `react-true-table` (`src/table.jsx`): a declarative
table component with Column / Group / Table classes, header layout with a
main row plus an optional sub-header row for grouped columns, a sort
registry mapping sort ids to sortable entities, and lazy sorted row order
from pluggable comparators.

Modelling conventions:
* React element children are an inductive `Element` (valid `<Column>` /
  `<Group>` elements, foreign valid elements, and non-element nodes).
* JS exceptions become `Except JsError`.
* JS objects used as maps (the sort registry) become association lists
  with JS assignment semantics (`mapSet`).
* JS truthiness of optional string props (`undefined` and `""` are falsy)
  is `truthy`.
* Rendered output (`<th>` / `<td>` elements and React nodes) is modelled
  by `Cell` and `Node`; `null` render results are `Option.none`.
* Type parameters: `κ` is the dataset index/key type (`Nat` positions for
  array datasets, `String` keys for mapping datasets), `ρ` the data row
  type, `ν` the column value type.
-/

namespace TrueTable

/-- JS truthiness of an optional string prop: `undefined` and the empty
string are falsy, every other string is truthy. -/
def truthy : Option String → Bool
  | none => false
  | some s => !s.isEmpty

/-- JS property-key coercion of a possibly-undefined string: object keys
are strings, and `undefined` used as a key coerces to the string
`"undefined"` (as in `sortMap.hasOwnProperty(this.state.sort)`). -/
def jsKey : Option String → String
  | none => "undefined"
  | some s => s

/-- JS object property assignment `m[k] = v` on an object modelled as an
association list: an existing key keeps its position and gets the new
value, a new key is appended. -/
def mapSet (m : List (String × α)) (k : String) (v : α) : List (String × α) :=
  if (m.lookup k).isSome then
    m.map (fun p => if p.1 = k then (k, v) else p)
  else
    m ++ [(k, v)]

/-- JS spread-merge of two string-keyed props objects, `{...base, ...override}`:
keys of `base` keep their position (overridden values win), fresh keys of
`override` are appended. -/
def assocSpread (base override : List (String × String)) : List (String × String) :=
  base.map (fun p => match override.lookup p.1 with
    | some v => (p.1, v)
    | none => p)
  ++ override.filter (fun p => (base.lookup p.1).isNone)

/-- A rendered React node (header-cell content). `null` content is `Node.null`;
other content is opaque text. The pluggable sorting-indicator renderer is a
function `Node → Bool → Node`. -/
inductive Node where
  | null : Node
  | text : String → Node
deriving DecidableEq, Repr

/-- Props attached to a rendered `<th>` / `<td>` element. `rowSpan`,
`colSpan` and the sorting `onClick` handler are tracked explicitly (the
`onClick` handler `() => table.sortBy(sortId)` is recorded as the sort id
it would pass); all other custom props are an opaque string-keyed object. -/
structure ElemProps where
  rowSpan : Option Nat := none
  colSpan : Option Nat := none
  onClickSort : Option String := none
  custom : List (String × String) := []
deriving DecidableEq, Repr

/-- JS spread-merge `{...base, ...override}` on cell props: a field
present (`some`) in `override` wins, an absent (`none`) field keeps the
base value; the opaque custom props merge with `assocSpread`. -/
def ElemProps.spread (base override : ElemProps) : ElemProps where
  rowSpan := override.rowSpan <|> base.rowSpan
  colSpan := override.colSpan <|> base.colSpan
  onClickSort := override.onClickSort <|> base.onClickSort
  custom := assocSpread base.custom override.custom

/-- A rendered `<th>` or `<td>` element: React key, props, cell content. -/
structure Cell where
  key : String
  props : ElemProps
  cell : Node
deriving DecidableEq, Repr

/-- Arguments of the `headerProps` / `subHeaderProps` custom-prop hooks:
`{colIndex, groupIndex, sort, descending}`. For hooks whose JS call site
passes no `groupIndex` (top-level columns, group headers), `groupIndex`
is `none` (JS `undefined`). The JS `sort:` value is `isSorted(sort)`,
whose truthiness is modelled as a `Bool`. -/
structure HeaderPropsArgs where
  colIndex : Nat
  groupIndex : Option Nat := none
  sort : Bool
  descending : Bool

/-- Arguments of the `key` prop hook: `{row, rowIndex, colIndex, groupIndex}`,
with `row` / `rowIndex` absent (`none`) at header call sites. -/
structure KeyArgs (κ ρ : Type) where
  row : Option ρ := none
  rowIndex : Option κ := none
  colIndex : Nat
  groupIndex : Option Nat := none

/-- Arguments of the `tdProps` custom-prop hook:
`{row, rowIndex, colIndex, groupIndex}`. -/
structure TdPropsArgs (κ ρ : Type) where
  row : ρ
  rowIndex : κ
  colIndex : Nat
  groupIndex : Option Nat := none

/-- Arguments of the `render` cell-renderer hook:
`{row, value, rowIndex, colIndex, groupIndex}`. -/
structure RenderArgs (κ ρ ν : Type) where
  row : ρ
  value : ν
  rowIndex : κ
  colIndex : Nat
  groupIndex : Option Nat := none

/-- Props of a `<Column>` element (after React merges `Column.defaultProps`).
`sortMethod` is `Option`-valued so that the truthiness test in
`registerSortColumns` is expressible (`none` models an explicit
`sortMethod={null}`; the `defaultProps` entry `defaultSort` otherwise makes
it present). The JS comparator also receives the `Column` instance itself;
a Lean structure cannot contain a function over itself, so comparators are
modelled as closing over whatever column data they use. -/
structure ColumnProps (κ ρ ν : Type) where
  header : Node := Node.null
  value : ρ → ν
  render : RenderArgs κ ρ ν → Node
  key : KeyArgs κ ρ → String
  sortId : Option String := none
  sortMethod : Option (ρ → ρ → Bool → Int)
  hidden : Bool := false
  headerProps : HeaderPropsArgs → ElemProps := fun _ => {}
  tdProps : TdPropsArgs κ ρ → ElemProps := fun _ => {}

/-- A constructed `Column` instance (`new Column(props, table, group)`).
The `table` back-reference is used only for `renderSorting` and the
`sortBy` click handler; both are supplied at the call sites instead of
being stored, which avoids the circular reference. The `group`
back-reference is not read by any method and is omitted. -/
structure Column (κ ρ ν : Type) where
  props : ColumnProps κ ρ ν

/-- `Column.value`: return the data value of a row for this column. -/
def Column.value (c : Column κ ρ ν) (row : ρ) : ν :=
  c.props.value row

/-- `Column.isSorted`: `sort && (sort === this.props.sortId)`. JS returns
the falsy `sort` value itself when the current sort id is unset or empty;
the result is only ever used for its truthiness, modelled as `Bool`. -/
def Column.isSorted (c : Column κ ρ ν) (sort : Option String) : Bool :=
  truthy sort && sort == c.props.sortId

/-- `Column.sort`: compare two rows,
`this.props.sortMethod({a, b, descending, column: this}) * (descending ? -1 : 1)`.
Calling it with a null `sortMethod` throws in JS; the `getD` fallback is
unreachable through the sort registry, which only registers columns whose
`sortMethod` is present. -/
def Column.sort (c : Column κ ρ ν) (a b : ρ) (descending : Bool) : Int :=
  (c.props.sortMethod.getD (fun _ _ _ => 0)) a b descending
    * (if descending then -1 else 1)

/-- The table context a `Column`/`Group` method reaches through its
`this.table` reference: the current sort state and the table's pluggable
`renderSorting` prop. -/
structure SortCtx where
  sort : Option String
  descending : Bool
  renderSortingHook : Node → Bool → Node

/-- `Table.renderSorting`: wrap a header cell in the sorting indicator,
`if (sortId && (sortId === this.state.sort))`, via the pluggable
`renderSorting` prop with the current `descending` flag; otherwise return
the cell unchanged. -/
def renderSorting (ctx : SortCtx) (sortId : Option String) (cell : Node) : Node :=
  if truthy sortId && sortId == ctx.sort then
    ctx.renderSortingHook cell ctx.descending
  else
    cell

/-- `Column.renderHeader(colIndex, sort, descending, groupIndex, groupProps)`.
Hidden columns render nothing. Top-level columns (`groupIndex` undefined)
get `rowSpan = 2`. Group-supplied `groupProps` are spread under the
column's own header props. A truthy `sortId` installs the
`table.sortBy(sortId)` click handler. -/
def Column.renderHeader (c : Column κ ρ ν) (ctx : SortCtx) (colIndex : Nat)
    (sort : Option String) (descending : Bool) (groupIndex : Option Nat)
    (groupProps : Option ElemProps) : Option Cell :=
  if c.props.hidden then
    none
  else
    let props := c.props.headerProps
      { colIndex := colIndex, groupIndex := groupIndex,
        sort := c.isSorted sort, descending := descending }
    let props := match groupProps with
      | some gp => gp.spread props
      | none => props
    let props := if groupIndex = none then { props with rowSpan := some 2 } else props
    let props := if truthy c.props.sortId then
        { props with onClickSort := c.props.sortId }
      else props
    let key := c.props.key { colIndex := colIndex, groupIndex := groupIndex }
    let cell := renderSorting ctx c.props.sortId c.props.header
    some { key := key, props := props, cell := cell }

/-- `Column.renderCell(row, rowIndex, colIndex, groupIndex, groupProps)`.
Hidden columns render nothing; otherwise a `<td>` with the column's
`tdProps` spread over the group-supplied props, keyed by the `key` hook,
containing the `render` hook's output. -/
def Column.renderCell (c : Column κ ρ ν) (row : ρ) (rowIndex : κ) (colIndex : Nat)
    (groupIndex : Option Nat) (groupProps : Option ElemProps) : Option Cell :=
  if c.props.hidden then
    none
  else
    let props := c.props.tdProps
      { row := row, rowIndex := rowIndex, colIndex := colIndex, groupIndex := groupIndex }
    let props := match groupProps with
      | some gp => gp.spread props
      | none => props
    let key := c.props.key
      { row := some row, rowIndex := some rowIndex,
        colIndex := colIndex, groupIndex := groupIndex }
    let cell := c.props.render
      { row := row, value := c.value row, rowIndex := rowIndex,
        colIndex := colIndex, groupIndex := groupIndex }
    some { key := key, props := props, cell := cell }

/-- Props of a `<Group>` element (after React merges `Group.defaultProps`).
`children` is not stored here: the `Element.group` constructor carries the
child elements. The default `key` prop `({colIndex}) => colIndex` renders
the index; keys are strings in the model. -/
structure GroupProps (κ ρ ν : Type) where
  header : Node := Node.null
  key : Nat → String := fun colIndex => toString colIndex
  sortId : Option String := none
  sortMethod : Option (ρ → ρ → Bool → Int) := none
  headerProps : HeaderPropsArgs → ElemProps := fun _ => {}
  subHeaderProps : HeaderPropsArgs → ElemProps := fun _ => {}
  tdProps : TdPropsArgs κ ρ → ElemProps := fun _ => {}

/-- A constructed `Group` instance: its props and the `Column` instances
built from its children. As with `Column`, the `table` back-reference is
supplied at call sites. -/
structure Group (κ ρ ν : Type) where
  props : GroupProps κ ρ ν
  columns : List (Column κ ρ ν)

/-- `isSorted` inherited from `Column`, reading the group's own props. -/
def Group.isSorted (g : Group κ ρ ν) (sort : Option String) : Bool :=
  truthy sort && sort == g.props.sortId

/-- `sort` inherited from `Column`, reading the group's own props. Calling
it with an absent `sortMethod` throws in JS; the `getD` fallback is
unreachable for groups built by the constructor with a truthy `sortId`,
which requires `sortMethod`. -/
def Group.sort (g : Group κ ρ ν) (a b : ρ) (descending : Bool) : Int :=
  (g.props.sortMethod.getD (fun _ _ _ => 0)) a b descending
    * (if descending then -1 else 1)

/-- The JS expression `this.sortId` inside `Group.registerSortColumns`:
`Group` (and `Column`) instances only ever assign `props`, `table`,
`group` and `columns`, so the own-property lookup `this.sortId` yields
`undefined` — the sort id lives at `this.props.sortId` instead. -/
def Group.fieldSortId (_ : Group κ ρ ν) : Option String :=
  none

/-- A React child node handed to `<Table>` or `<Group>`:
a valid `<Column>` element, a valid `<Group>` element with its children,
a valid element of a foreign component type (named), or a non-element
node (its JS `typeof` string recorded). -/
inductive Element (κ ρ ν : Type) where
  | column (props : ColumnProps κ ρ ν)
  | group (props : GroupProps κ ρ ν) (children : List (Element κ ρ ν))
  | foreign (typeName : String)
  | nonElement (typeOf : String)

/-- Whether a child node is a valid element of type `Column` — the shape
the `Group` constructor accepts. -/
def isColumnElement : Element κ ρ ν → Bool
  | .column _ => true
  | _ => false

/-- Whether a child node passes `Table.updateColumns` validation: a valid
element whose constructed instance is `instanceof Column`, i.e. a
`<Column>` or `<Group>` element. -/
def isValidTableChild : Element κ ρ ν → Bool
  | .column _ => true
  | .group _ _ => true
  | _ => false

/-- A thrown JS exception: `TypeError(msg)` or `Error(msg)`. -/
inductive JsError where
  | typeError (msg : String)
  | error (msg : String)
deriving DecidableEq, Repr

/-- Lodash `_.map` where the callback may throw: elements are processed
in order and the first thrown exception aborts the whole map. -/
def mapExcept (f : α → Except ε β) : List α → Except ε (List β)
  | [] => Except.ok []
  | a :: as => do
    let b ← f a
    let bs ← mapExcept f as
    Except.ok (b :: bs)

/-- The per-child callback of the `Group` constructor: `isValidElement`
check (`TypeError` for non-element nodes), then `e.type !== Column`
(`TypeError` — only columns are allowed inside a group, no nesting), then
`new e.type(e.props, this.table, this)` building the `Column` instance. -/
def groupChild (e : Element κ ρ ν) : Except JsError (Column κ ρ ν) :=
  match e with
  | .nonElement t =>
      Except.error (JsError.typeError ("Node of type " ++ t ++ " not valid in <Group>"))
  | .column cp => Except.ok ⟨cp⟩
  | .group _ _ => Except.error (JsError.typeError "Element <Group> not valid in <Group>")
  | .foreign n =>
      Except.error (JsError.typeError ("Element <" ++ n ++ "> not valid in <Group>"))

/-- The `Group` constructor. Children are validated and turned into
`Column` instances first, in order, stopping at the first offender; then
a truthy `sortId` without a `sortMethod` raises
`Error("sortMethod is required for sortable <Group>")`. -/
def mkGroup (props : GroupProps κ ρ ν) (children : List (Element κ ρ ν)) :
    Except JsError (Group κ ρ ν) := do
  let columns ← mapExcept groupChild children
  if truthy props.sortId && !props.sortMethod.isSome then
    Except.error (JsError.error "sortMethod is required for sortable <Group>")
  else
    Except.ok ⟨props, columns⟩

/-- A `Column` or `Group` instance owned by a `Table` (both pass the
`instance instanceof Column` check in `updateColumns`). -/
inductive ColumnOrGroup (κ ρ ν : Type) where
  | col (c : Column κ ρ ν)
  | grp (g : Group κ ρ ν)

/-- The table's sort registry `this.sortMap`: a JS object mapping sort-id
keys to the registered `Column`/`Group` instance. -/
abbrev SortMap (κ ρ ν : Type) := List (String × ColumnOrGroup κ ρ ν)

/-- `Column.registerSortColumns(sortMap)`:
`if (this.props.sortId && this.props.sortMethod) sortMap[this.props.sortId] = this`. -/
def Column.registerSortColumns (c : Column κ ρ ν) (m : SortMap κ ρ ν) : SortMap κ ρ ν :=
  if truthy c.props.sortId && c.props.sortMethod.isSome then
    mapSet m (jsKey c.props.sortId) (ColumnOrGroup.col c)
  else
    m

/-- `Group.registerSortColumns(sortMap)`. The guard reads `this.sortId`
(`Group.fieldSortId`), which is always `undefined` — see `Group.fieldSortId`
— so the group itself is never added to the registry; then each child
column registers itself in order. -/
def Group.registerSortColumns (g : Group κ ρ ν) (m : SortMap κ ρ ν) : SortMap κ ρ ν :=
  let m := if truthy g.fieldSortId then
      mapSet m (jsKey g.fieldSortId) (ColumnOrGroup.grp g)
    else m
  g.columns.foldl (fun acc c => c.registerSortColumns acc) m

/-- Dynamic dispatch of `registerSortColumns` over the instance's class. -/
def ColumnOrGroup.registerSortColumns (x : ColumnOrGroup κ ρ ν) (m : SortMap κ ρ ν) :
    SortMap κ ρ ν :=
  match x with
  | .col c => c.registerSortColumns m
  | .grp g => g.registerSortColumns m

/-- One child of `Table.updateColumns`: `isValidElement` check, then
`new e.type(e.props, this)` (which for a `<Group>` element runs the
`Group` constructor and may itself throw), then the
`instance instanceof Column` check — foreign element types fail it. -/
def mkTableChild (e : Element κ ρ ν) : Except JsError (ColumnOrGroup κ ρ ν) :=
  match e with
  | .nonElement t =>
      Except.error (JsError.typeError ("Node of type " ++ t ++ " not valid in <Table>"))
  | .column cp => Except.ok (ColumnOrGroup.col ⟨cp⟩)
  | .group gp ch => (mkGroup gp ch).map ColumnOrGroup.grp
  | .foreign n =>
      Except.error (JsError.typeError ("Element <" ++ n ++ "> not valid in <Table>"))

/-- The mapping loop of `Table.updateColumns`: construct each child in
order, register its sort columns into the accumulating registry, stop at
the first thrown error. -/
def updateColumnsGo (m : SortMap κ ρ ν) :
    List (Element κ ρ ν) → Except JsError (List (ColumnOrGroup κ ρ ν) × SortMap κ ρ ν)
  | [] => Except.ok ([], m)
  | e :: rest => do
    let inst ← mkTableChild e
    let (insts, mOut) ← updateColumnsGo (inst.registerSortColumns m) rest
    Except.ok (inst :: insts, mOut)

/-- `Table.updateColumns(children)`: reset the registry to the empty
object (`this.sortMap = {}`), then map the children to instances,
registering each; returns the instance list and the rebuilt registry. -/
def Table.updateColumns (children : List (Element κ ρ ν)) :
    Except JsError (List (ColumnOrGroup κ ρ ν) × SortMap κ ρ ν) :=
  updateColumnsGo [] children

/-- The `Table` component's mutable data relevant to the claims: the
React state fields `sort`, `descending`, `columns`, and the instance
field `this.sortMap` (updated together with `columns`). -/
structure TableState (κ ρ ν : Type) where
  sort : Option String := none
  descending : Bool := false
  columns : List (ColumnOrGroup κ ρ ν) := []
  sortMap : SortMap κ ρ ν := []

/-- The `children` prop with its JS object identity: `!==` on props is
reference inequality, modelled by the `ref` tag. -/
structure ChildrenProp (κ ρ ν : Type) where
  ref : Nat
  elems : List (Element κ ρ ν)

/-- `Table.componentWillReceiveProps(props)`: when the `children`
reference changed, rebuild columns and registry via `updateColumns` on
the new children; otherwise leave the state alone. `validateProps` only
emits a console warning and changes no state, so it is omitted. -/
def Table.componentWillReceiveProps (st : TableState κ ρ ν)
    (oldChildren newChildren : ChildrenProp κ ρ ν) :
    Except JsError (TableState κ ρ ν) :=
  if oldChildren.ref ≠ newChildren.ref then do
    let (cols, m) ← Table.updateColumns newChildren.elems
    Except.ok { st with columns := cols, sortMap := m }
  else
    Except.ok st

/-- `Table.sortBy(sort, descending)`: with `descending` undefined, flip
the direction when `sort` matches the current order, else reset to
ascending; then `setState({sort, descending})`. -/
def Table.sortBy (st : TableState κ ρ ν) (sort : Option String)
    (descending : Option Bool) : TableState κ ρ ν :=
  let d := match descending with
    | none => if sort == st.sort then !st.descending else false
    | some d => d
  { st with sort := sort, descending := d }

/-- Dispatch of the inherited `sort` comparator over the instance class
(used by `sortedDataIndexes` on whatever the registry holds). -/
def ColumnOrGroup.sort (x : ColumnOrGroup κ ρ ν) (a b : ρ) (descending : Bool) : Int :=
  match x with
  | .col c => c.sort a b descending
  | .grp g => g.sort a b descending

/-- The ordering relation the comparator of `sortedDataIndexes` induces
on dataset indexes: index `a` may come before index `b` when
`column.sort(data[a], data[b], descending)` is non-positive. -/
def cmpRel [DecidableEq κ] [Inhabited ρ] (data : List (κ × ρ))
    (column : ColumnOrGroup κ ρ ν) (descending : Bool) (a b : κ) : Prop :=
  column.sort ((data.lookup a).getD default) ((data.lookup b).getD default)
    descending ≤ 0

instance [DecidableEq κ] [Inhabited ρ] (data : List (κ × ρ))
    (column : ColumnOrGroup κ ρ ν) (descending : Bool) :
    DecidableRel (cmpRel data column descending) :=
  fun _ _ => Int.decLe _ _

/-- `Table.sortedDataIndexes()`. The dataset is an association list of
index/key and row (array indexes for array data, string keys in insertion
order for mapping data); `_.map(data, (value, index) => index)` is the key
list. `hasOwnProperty(this.state.sort)` coerces an undefined sort id to
the key `"undefined"` (`jsKey`). The in-place `Array.prototype.sort` with
comparator `column.sort(data[a], data[b], descending)` is modelled by the
stable `List.insertionSort` along `cmpRel`. -/
def Table.sortedDataIndexes [DecidableEq κ] [Inhabited ρ] (data : List (κ × ρ))
    (sortMap : SortMap κ ρ ν) (sort : Option String) (descending : Bool) : List κ :=
  let indexes := data.map Prod.fst
  match sortMap.lookup (jsKey sort) with
  | none => indexes
  | some column =>
      List.insertionSort (cmpRel data column descending) indexes

/-- Lodash `_.map(list, (x, i) => ...)` with the running index, starting
at `i`. -/
def mapIdxFrom (f : Nat → α → β) (i : Nat) : List α → List β
  | [] => []
  | a :: as => f i a :: mapIdxFrom f (i + 1) as

/-- `Group.renderHeader(colIndex, sort, descending)`: the group's own
`<th>` (with `colSpan = this.columns.length` and, for a truthy `sortId`,
the `table.sortBy(sortId)` click handler), followed by the child columns'
header cells rendered with their `groupIndex` and the group's
`subHeaderProps`. The JS return value is the flat array
`[groupTh, ...childThs]`; it is modelled as the pair of the head and the
tail. -/
def Group.renderHeader (g : Group κ ρ ν) (ctx : SortCtx) (colIndex : Nat)
    (sort : Option String) (descending : Bool) : Cell × List (Option Cell) :=
  let props := g.props.headerProps
    { colIndex := colIndex, sort := g.isSorted sort, descending := descending }
  let props := { props with colSpan := some g.columns.length }
  let props := if truthy g.props.sortId then
      { props with onClickSort := g.props.sortId }
    else props
  let key := g.props.key colIndex
  let cell := renderSorting ctx g.props.sortId g.props.header
  ({ key := key, props := props, cell := cell },
    mapIdxFrom (fun groupIndex c =>
        let groupProps := g.props.subHeaderProps
          { colIndex := colIndex, groupIndex := some groupIndex,
            sort := c.isSorted sort, descending := descending }
        c.renderHeader ctx colIndex sort descending (some groupIndex) (some groupProps))
      0 g.columns)

/-- `Group.renderCell(row, rowIndex, columnIndex)`: the child columns'
data cells, each rendered with its `groupIndex` and the group's `tdProps`
as group props. -/
def Group.renderCell (g : Group κ ρ ν) (row : ρ) (rowIndex : κ)
    (columnIndex : Nat) : List (Option Cell) :=
  mapIdxFrom (fun groupIndex c =>
      let groupProps := g.props.tdProps
        { row := row, rowIndex := rowIndex, colIndex := columnIndex,
          groupIndex := some groupIndex }
      c.renderCell row rowIndex columnIndex (some groupIndex) (some groupProps))
    0 g.columns

/-- One entry of the `cells` array in `Table.renderHeader`: a plain
column's result is a single (possibly null) `<th>`; a group's result is
the JS array `[groupTh, ...childThs]`, distinguished downstream by
`c instanceof Array`. -/
inductive HeaderResult where
  | single (th : Option Cell)
  | multi (head : Cell) (subs : List (Option Cell))

/-- Dynamic dispatch of `renderHeader` over the instance's class. -/
def ColumnOrGroup.renderHeader (x : ColumnOrGroup κ ρ ν) (ctx : SortCtx)
    (colIndex : Nat) (sort : Option String) (descending : Bool) : HeaderResult :=
  match x with
  | .col c => HeaderResult.single (c.renderHeader ctx colIndex sort descending none none)
  | .grp g =>
      let r := g.renderHeader ctx colIndex sort descending
      HeaderResult.multi r.1 r.2

/-- The `cells` array computed in `Table.renderHeader`: each top-level
instance rendered with its `colIndex` and the current sort state (the
`sort` / `descending` arguments are `this.state.sort` /
`this.state.descending`, the same state `renderSorting` reads — both come
from `ctx`). -/
def Table.renderHeaderCells (ctx : SortCtx) (columns : List (ColumnOrGroup κ ρ ν)) :
    List HeaderResult :=
  mapIdxFrom (fun colIndex c => c.renderHeader ctx colIndex ctx.sort ctx.descending)
    0 columns

/-- `(c instanceof Array) ? c[0] : c` — the contribution of one `cells`
entry to the main header row. -/
def mainRowCell : HeaderResult → Option Cell
  | .single th => th
  | .multi head _ => some head

/-- `(c instanceof Array) ? c.slice(1) : []` — the contribution of one
`cells` entry to the sub-header row. -/
def subRowCells : HeaderResult → List (Option Cell)
  | .single _ => []
  | .multi _ subs => subs

/-- A rendered header `<tr>`: merged row props and its cells (null
entries are unrendered hidden columns). -/
structure HeaderRow where
  props : List (String × String)
  cells : List (Option Cell)

/-- `Table.renderMainHeader(cells)`: one cell per top-level child — the
first element of each group's array, the cell itself otherwise — in a
`<tr>` with `trProps` spread-merged with `headerTrProps`. -/
def Table.renderMainHeader (trProps headerTrProps : List (String × String))
    (cells : List HeaderResult) : HeaderRow :=
  { props := assocSpread trProps headerTrProps,
    cells := cells.map mainRowCell }

/-- `Table.renderSubHeader(cells)`: the flattened tails of the group
arrays; when that list is empty the row is omitted (`null`), otherwise a
`<tr>` with `trProps` spread-merged with `subHeaderTrProps`. -/
def Table.renderSubHeader (trProps subHeaderTrProps : List (String × String))
    (cells : List HeaderResult) : Option HeaderRow :=
  let rowCells := (cells.map subRowCells).flatten
  if rowCells.length = 0 then
    none
  else
    some { props := assocSpread trProps subHeaderTrProps, cells := rowCells }

/-! Concrete fixtures (instantiated at `κ := Nat`, `ρ := Int`, `ν := Int`)
used to evaluate the definitions on closed inputs. -/

/-- A minimal table context: no active sort, ascending, with an indicator
renderer that wraps the cell in the fixed text `"sorted"`. -/
def sampleCtx : SortCtx :=
  { sort := none, descending := false, renderSortingHook := fun _ _ => Node.text "sorted" }

/-- A sortable column declaration with id `"c"` and a subtraction
comparator. -/
def c1ColProps : ColumnProps Nat Int Int :=
  { header := Node.text "A", value := id, render := fun _ => Node.null,
    key := fun _ => "k", sortId := some "c",
    sortMethod := some fun a b _ => a - b }

/-- A plain column declaration without a sort id. -/
def c1InnerColProps : ColumnProps Nat Int Int :=
  { header := Node.text "B", value := id, render := fun _ => Node.null,
    key := fun _ => "k", sortMethod := some fun a b _ => a - b }

/-- A sortable group declaration with id `"g"` and the explicitly
required custom comparator. -/
def c1GroupProps : GroupProps Nat Int Int :=
  { header := Node.text "G", sortId := some "g",
    sortMethod := some fun a b _ => a - b }

/-- Declarative table children: a sortable column and a sortable group
holding one plain column. -/
def c1Children : List (Element Nat Int Int) :=
  [Element.column c1ColProps, Element.group c1GroupProps [Element.column c1InnerColProps]]

/-- A sortable column declaration with id `"v"` comparing row values by
subtraction. -/
def c3ColProps : ColumnProps Nat Int Int :=
  { header := Node.text "V", value := id, render := fun _ => Node.null,
    key := fun _ => "k", sortId := some "v",
    sortMethod := some fun a b _ => a - b }

/-- An array-shaped dataset: rows `3, 1, 2` at positions `0, 1, 2`. -/
def c3Data : List (Nat × Int) :=
  [(0, 3), (1, 1), (2, 2)]

/-- A sort registry holding the `"v"` column. -/
def c3Map : SortMap Nat Int Int :=
  [("v", ColumnOrGroup.col ⟨c3ColProps⟩)]

/-- Group props with a sort id but no comparator. -/
def c4Props : GroupProps Nat Int Int :=
  { sortId := some "g" }

/-- Group props with a sort id and the required comparator. -/
def c4PropsMethod : GroupProps Nat Int Int :=
  { sortId := some "g", sortMethod := some fun a b _ => a - b }

/-- A column whose comparator reads the `descending` argument the JS code
hands it, returning `5` when descending and `3` otherwise. -/
def c9BadColumn : Column Nat Int Int :=
  ⟨{ value := id, render := fun _ => Node.null, key := fun _ => "k",
     sortMethod := some fun _ _ descending => if descending then 5 else 3 }⟩

/-- A column whose comparator ignores the `descending` argument. -/
def c9GoodColumn : Column Nat Int Int :=
  ⟨{ value := id, render := fun _ => Node.null, key := fun _ => "k",
     sortMethod := some fun a b _ => a - b }⟩

/-- A `hidden: true` column declaration. -/
def c10HiddenProps : ColumnProps Nat Int Int :=
  { header := Node.text "H", value := id, render := fun _ => Node.null,
    key := fun _ => "k", sortMethod := some fun a b _ => a - b,
    hidden := true }

/-- A group instance holding one visible and one hidden column. -/
def c10Group : Group Nat Int Int :=
  ⟨{ header := Node.text "G" }, [⟨c1InnerColProps⟩, ⟨c10HiddenProps⟩]⟩

/-- A visible top-level column declaration. -/
def c2ColProps : ColumnProps Nat Int Int :=
  { header := Node.text "Top", value := id, render := fun _ => Node.null,
    key := fun _ => "k", sortMethod := some fun a b _ => a - b }

/-- A group instance holding two plain columns. -/
def c2Group : Group Nat Int Int :=
  ⟨{ header := Node.text "G2" }, [⟨c2ColProps⟩, ⟨c1InnerColProps⟩]⟩

/-- Top-level instances: one visible column and one two-column group. -/
def c2Columns : List (ColumnOrGroup Nat Int Int) :=
  [ColumnOrGroup.col ⟨c2ColProps⟩, ColumnOrGroup.grp c2Group]

/-- An initial table state with an active sort on `"x"`, descending. -/
def c6State : TableState Nat Int Int :=
  { sort := some "x", descending := true, columns := [], sortMap := [] }

/-! Helper lemmas. -/

/-- `Except` bind on a success reduces to the continuation. -/
theorem except_bind_ok (a : α) (f : α → Except ε β) :
    (Except.ok a >>= f) = f a :=
  rfl

/-- `Except` bind on an error short-circuits. -/
theorem except_bind_error (e : ε) (f : α → Except ε β) :
    ((Except.error e : Except ε α) >>= f) = Except.error e :=
  rfl

/-- `mapExcept` succeeds when every element's callback succeeds. -/
theorem mapExcept_ok_of_all {f : α → Except ε β} {l : List α}
    (h : ∀ a ∈ l, ∃ b, f a = Except.ok b) :
    ∃ bs, mapExcept f l = Except.ok bs := by
  induction l with
  | nil => exact ⟨[], rfl⟩
  | cons a as ih =>
    obtain ⟨b, hb⟩ := h a (List.mem_cons_self a as)
    obtain ⟨bs, hbs⟩ := ih fun x hx => h x (List.mem_cons_of_mem a hx)
    exact ⟨b :: bs, by simp [mapExcept, hb, hbs, except_bind_ok]⟩

/-- A valid column element constructs a `Column` in the `Group` child
map. -/
theorem groupChild_ok_of_column {e : Element κ ρ ν} (h : isColumnElement e = true) :
    ∃ c, groupChild e = Except.ok c := by
  cases e with
  | column cp => exact ⟨⟨cp⟩, rfl⟩
  | group gp ch => simp [isColumnElement] at h
  | foreign n => simp [isColumnElement] at h
  | nonElement t => simp [isColumnElement] at h

/-- A node that is not a valid column element raises a `TypeError` in the
`Group` child map. -/
theorem groupChild_typeError {e : Element κ ρ ν} (h : isColumnElement e = false) :
    ∃ msg, groupChild e = Except.error (JsError.typeError msg) := by
  cases e <;> simp [isColumnElement] at h <;> exact ⟨_, rfl⟩

/-- The `Group` child map raises a `TypeError` when some child is not a
valid column element. -/
theorem mapExcept_groupChild_typeError {l : List (Element κ ρ ν)}
    (h : ∃ e ∈ l, isColumnElement e = false) :
    ∃ msg, mapExcept groupChild l = Except.error (JsError.typeError msg) := by
  induction l with
  | nil => simp at h
  | cons a as ih =>
    by_cases ha : isColumnElement a = true
    · obtain ⟨c, hc⟩ := groupChild_ok_of_column ha
      have h2 : ∃ e ∈ as, isColumnElement e = false := by
        obtain ⟨e, he, hfalse⟩ := h
        rcases List.mem_cons.mp he with rfl | hmem
        · rw [ha] at hfalse; cases hfalse
        · exact ⟨e, hmem, hfalse⟩
      obtain ⟨msg, hmsg⟩ := ih h2
      exact ⟨msg, by simp [mapExcept, hc, hmsg, except_bind_ok, except_bind_error]⟩
    · obtain ⟨msg, hmsg⟩ := groupChild_typeError (Bool.eq_false_iff.mpr ha)
      exact ⟨msg, by simp [mapExcept, hmsg, except_bind_error]⟩

/-- Every error of the `Group` child map is a `TypeError`. -/
theorem mapExcept_groupChild_error_shape {l : List (Element κ ρ ν)} {e : JsError}
    (h : mapExcept groupChild l = Except.error e) :
    ∃ msg, e = JsError.typeError msg := by
  induction l with
  | nil => simp [mapExcept] at h
  | cons a as ih =>
    cases ha : groupChild a with
    | error err =>
      have : err = e := by
        rw [mapExcept, ha] at h
        simpa [except_bind_error] using h
      subst this
      cases a <;> simp [groupChild] at ha <;> exact ⟨_, ha.symm⟩
    | ok c =>
      cases has : mapExcept groupChild as with
      | error err =>
        have : err = e := by
          rw [mapExcept, ha, has] at h
          simpa [except_bind_ok, except_bind_error] using h
        subst this
        exact ih has
      | ok cs =>
        rw [mapExcept, ha, has] at h
        simp [except_bind_ok] at h

/-- A node that is not a valid table child raises a `TypeError` in
`updateColumns`. -/
theorem mkTableChild_typeError {e : Element κ ρ ν} (h : isValidTableChild e = false) :
    ∃ msg, mkTableChild e = Except.error (JsError.typeError msg) := by
  cases e <;> simp [isValidTableChild] at h <;> exact ⟨_, rfl⟩

/-- The `updateColumns` loop raises a `TypeError` when some child is not
a valid table child, provided every valid child constructs without
throwing. -/
theorem updateColumnsGo_typeError {l : List (Element κ ρ ν)} (m : SortMap κ ρ ν)
    (hex : ∃ e ∈ l, isValidTableChild e = false)
    (hok : ∀ e ∈ l, isValidTableChild e = true → ∃ x, mkTableChild e = Except.ok x) :
    ∃ msg, updateColumnsGo m l = Except.error (JsError.typeError msg) := by
  induction l generalizing m with
  | nil => simp at hex
  | cons a as ih =>
    by_cases ha : isValidTableChild a = true
    · obtain ⟨x, hx⟩ := hok a (List.mem_cons_self a as) ha
      have h2 : ∃ e ∈ as, isValidTableChild e = false := by
        obtain ⟨e, he, hfalse⟩ := hex
        rcases List.mem_cons.mp he with rfl | hmem
        · rw [ha] at hfalse; cases hfalse
        · exact ⟨e, hmem, hfalse⟩
      obtain ⟨msg, hmsg⟩ :=
        ih (x.registerSortColumns m) h2
          fun e he hv => hok e (List.mem_cons_of_mem a he) hv
      exact ⟨msg, by simp [updateColumnsGo, hx, hmsg, except_bind_ok, except_bind_error]⟩
    · obtain ⟨msg, hmsg⟩ := mkTableChild_typeError (Bool.eq_false_iff.mpr ha)
      exact ⟨msg, by simp [updateColumnsGo, hmsg, except_bind_error]⟩

/-! Claim theorems. -/

/-- Claim C7: the sorting indicator is rendered only on the entity whose
sort id equals the table's current sort id — `Table.renderSorting`
applies the pluggable `renderSorting` hook (with the current `descending`
flag) exactly when `sortId` is truthy and equal to the current sort
state, and otherwise returns the header cell content unchanged. -/
theorem c7_renderSorting_only_on_current_sort (ctx : SortCtx) (sortId : Option String)
    (cell : Node) :
    (truthy sortId = true → sortId = ctx.sort →
      renderSorting ctx sortId cell = ctx.renderSortingHook cell ctx.descending) ∧
    (truthy sortId = false ∨ sortId ≠ ctx.sort →
      renderSorting ctx sortId cell = cell) := by
  constructor
  · intro h1 h2
    subst h2
    simp [renderSorting, h1]
  · rintro (h | h)
    · simp [renderSorting, h]
    · simp [renderSorting, h]

/-- Witness for C7: with the current sort `"a"` the hook output replaces
the cell; with a non-matching sort the cell passes through. -/
theorem c7_witness :
    renderSorting
        { sort := some "a", descending := true,
          renderSortingHook := fun _ _ => Node.text "ind" }
        (some "a") (Node.text "h")
      = Node.text "ind" ∧
    renderSorting sampleCtx (some "a") (Node.text "h") = Node.text "h" :=
  ⟨(c7_renderSorting_only_on_current_sort
      { sort := some "a", descending := true,
        renderSortingHook := fun _ _ => Node.text "ind" }
      (some "a") (Node.text "h")).1 (by decide) rfl,
   (c7_renderSorting_only_on_current_sort sampleCtx (some "a") (Node.text "h")).2
      (Or.inr (by decide))⟩

/-- Claim C8: `Table.sortBy(s)` with `descending` undefined sets the sort
state to `s`, flipping the direction when `s` equals the current sort id
and resetting to ascending otherwise; `sortBy(s, d)` sets the state to
exactly `(s, d)`. -/
theorem c8_sortBy_state {κ ρ ν : Type} (st : TableState κ ρ ν) (s : Option String) :
    ((Table.sortBy st s none).sort = s) ∧
    (s = st.sort → (Table.sortBy st s none).descending = !st.descending) ∧
    (s ≠ st.sort → (Table.sortBy st s none).descending = false) ∧
    (∀ d : Bool, (Table.sortBy st s (some d)).sort = s ∧
      (Table.sortBy st s (some d)).descending = d) := by
  refine ⟨rfl, fun h => ?_, fun h => ?_, fun d => ⟨rfl, rfl⟩⟩
  · simp [Table.sortBy, h]
  · simp [Table.sortBy, h]

/-- Witness for C8 on a concrete state sorted descending by `"x"`:
re-sorting by `"x"` flips the direction, sorting by `"y"` resets it, and
an explicit direction is taken as given. -/
theorem c8_witness :
    (Table.sortBy c6State (some "x") none).descending = !c6State.descending ∧
    (Table.sortBy c6State (some "y") none).descending = false ∧
    (Table.sortBy c6State (some "y") (some true)).sort = some "y" ∧
    (Table.sortBy c6State (some "y") (some true)).descending = true :=
  ⟨(c8_sortBy_state c6State (some "x")).2.1 rfl,
   (c8_sortBy_state c6State (some "y")).2.2.1 (by decide),
   ((c8_sortBy_state c6State (some "y")).2.2.2 true).1,
   ((c8_sortBy_state c6State (some "y")).2.2.2 true).2⟩

/-- Claim C9 counterexample: a comparator that reads the `descending`
flag the code passes it breaks the negation identity — for `c9BadColumn`,
`sort(a, b, true)` is `-5` while `-sort(a, b, false)` is `-3`. -/
theorem c9_counterexample :
    c9BadColumn.sort 0 0 true ≠ -(c9BadColumn.sort 0 0 false) := by
  decide

/-- Claim C9 (amended): for every column and every pair of rows, when the
supplied comparator's result does not depend on the `descending` flag it
receives, the descending comparison is the exact negation of the
ascending one. -/
theorem c9_sort_negation {κ ρ ν : Type} (c : Column κ ρ ν) (a b : ρ)
    (m : ρ → ρ → Bool → Int) (hm : c.props.sortMethod = some m)
    (h : m a b true = m a b false) :
    c.sort a b true = -(c.sort a b false) := by
  simp [Column.sort, hm, h]

/-- Witness for C9 (amended) at a concrete column with a
`descending`-independent comparator. -/
theorem c9_witness :
    c9GoodColumn.sort 1 2 true = -(c9GoodColumn.sort 1 2 false) :=
  c9_sort_negation c9GoodColumn 1 2 (fun a b _ => a - b) rfl rfl

/-- Claim C4: constructing a `Group` with a (truthy) `sortId` and no
`sortMethod` throws (when the children are valid columns, specifically
the `Error("sortMethod is required for sortable <Group>")`); with both a
`sortId` and a `sortMethod`, or with no truthy `sortId`, that error is
never thrown. -/
theorem c4_sortable_group_requires_sortMethod {κ ρ ν : Type}
    (props : GroupProps κ ρ ν) (children : List (Element κ ρ ν)) :
    (truthy props.sortId = true → props.sortMethod.isNone = true →
      ∃ e, mkGroup props children = Except.error e) ∧
    (children.all isColumnElement = true → truthy props.sortId = true →
      props.sortMethod.isNone = true →
      mkGroup props children
        = Except.error (JsError.error "sortMethod is required for sortable <Group>")) ∧
    (truthy props.sortId = true → props.sortMethod.isSome = true →
      mkGroup props children
        ≠ Except.error (JsError.error "sortMethod is required for sortable <Group>")) ∧
    (truthy props.sortId = false →
      mkGroup props children
        ≠ Except.error (JsError.error "sortMethod is required for sortable <Group>")) := by
  have hchar : ∀ cols, mapExcept groupChild children = Except.ok cols →
      mkGroup props children =
        if truthy props.sortId && !props.sortMethod.isSome then
          Except.error (JsError.error "sortMethod is required for sortable <Group>")
        else Except.ok ⟨props, cols⟩ := by
    intro cols hcols
    simp only [mkGroup, hcols, except_bind_ok]
  have herr : ∀ e, mapExcept groupChild children = Except.error e →
      mkGroup props children = Except.error e := by
    intro e he
    simp only [mkGroup, he, except_bind_error]
  have hguard : children.all isColumnElement = true →
      truthy props.sortId = true → props.sortMethod.isNone = true →
      mkGroup props children
        = Except.error (JsError.error "sortMethod is required for sortable <Group>") := by
    intro hall h1 h2
    obtain ⟨cs, hcs⟩ := mapExcept_ok_of_all fun e he =>
      groupChild_ok_of_column (List.all_eq_true.mp hall e he)
    rw [hchar cs hcs, if_pos]
    rw [Option.isNone_iff_eq_none] at h2
    simp [h1, h2]
  refine ⟨fun h1 h2 => ?_, fun hall h1 h2 => hguard hall h1 h2, fun h1 h2 => ?_,
    fun h1 => ?_⟩
  · by_cases hall : children.all isColumnElement = true
    · exact ⟨_, hguard hall h1 h2⟩
    · have hex : ∃ e ∈ children, isColumnElement e = false := by
        simp only [List.all_eq_true] at hall
        push_neg at hall
        obtain ⟨e, he, hne⟩ := hall
        exact ⟨e, he, Bool.eq_false_iff.mpr hne⟩
      obtain ⟨msg, hmsg⟩ := mapExcept_groupChild_typeError hex
      exact ⟨_, herr _ hmsg⟩
  · cases hm : mapExcept groupChild children with
    | error err =>
      obtain ⟨msg, rfl⟩ := mapExcept_groupChild_error_shape hm
      rw [herr _ hm]
      simp
    | ok cols =>
      rw [hchar cols hm, if_neg]
      · simp
      · simp [h2]
  · cases hm : mapExcept groupChild children with
    | error err =>
      obtain ⟨msg, rfl⟩ := mapExcept_groupChild_error_shape hm
      rw [herr _ hm]
      simp
    | ok cols =>
      rw [hchar cols hm, if_neg]
      · simp
      · simp [h1]

/-- Witness for C4: a sortable group declaration without a comparator
fails with the dedicated error; adding the comparator avoids it, as does
dropping the sort id. -/
theorem c4_witness :
    mkGroup c4Props ([] : List (Element Nat Int Int))
      = Except.error (JsError.error "sortMethod is required for sortable <Group>") ∧
    mkGroup c4PropsMethod ([] : List (Element Nat Int Int))
      ≠ Except.error (JsError.error "sortMethod is required for sortable <Group>") ∧
    mkGroup ({ } : GroupProps Nat Int Int) ([] : List (Element Nat Int Int))
      ≠ Except.error (JsError.error "sortMethod is required for sortable <Group>") :=
  ⟨(c4_sortable_group_requires_sortMethod c4Props []).2.1 rfl rfl rfl,
   (c4_sortable_group_requires_sortMethod c4PropsMethod []).2.2.1 rfl rfl,
   (c4_sortable_group_requires_sortMethod ({ } : GroupProps Nat Int Int) []).2.2.2 rfl⟩

/-- Claim C5: the column/group tree validates its shape at construction —
the `Group` constructor throws a `TypeError` when some child is not a
valid column element (in particular for any nested `<Group>` child) and
throws no `TypeError` when all children are valid columns;
`Table.updateColumns` throws a `TypeError` when some child is not a valid
element whose instance is a `Column` or `Group` (provided the valid
children themselves construct without throwing, so the offending child's
validation is what fails first). -/
theorem c5_shape_validation_at_construction {κ ρ ν : Type}
    (gprops : GroupProps κ ρ ν) (gchildren tchildren : List (Element κ ρ ν)) :
    ((∃ e ∈ gchildren, isColumnElement e = false) →
      ∃ msg, mkGroup gprops gchildren = Except.error (JsError.typeError msg)) ∧
    ((∀ e ∈ gchildren, isColumnElement e = true) →
      ∀ msg, mkGroup gprops gchildren ≠ Except.error (JsError.typeError msg)) ∧
    (∀ gp2 ch2, Element.group gp2 ch2 ∈ gchildren →
      ∃ msg, mkGroup gprops gchildren = Except.error (JsError.typeError msg)) ∧
    ((∃ e ∈ tchildren, isValidTableChild e = false) →
      (∀ e ∈ tchildren, isValidTableChild e = true → ∃ x, mkTableChild e = Except.ok x) →
      ∃ msg, Table.updateColumns tchildren = Except.error (JsError.typeError msg)) := by
  have hgroup : (∃ e ∈ gchildren, isColumnElement e = false) →
      ∃ msg, mkGroup gprops gchildren = Except.error (JsError.typeError msg) := by
    intro hex
    obtain ⟨msg, hmsg⟩ := mapExcept_groupChild_typeError hex
    exact ⟨msg, by simp only [mkGroup, hmsg, except_bind_error]⟩
  refine ⟨hgroup, fun hall msg => ?_, fun gp2 ch2 hmem => ?_, fun hex hok => ?_⟩
  · obtain ⟨cs, hcs⟩ := mapExcept_ok_of_all fun e he => groupChild_ok_of_column (hall e he)
    simp only [mkGroup, hcs, except_bind_ok]
    by_cases hg : (truthy gprops.sortId && !gprops.sortMethod.isSome) = true
    · rw [if_pos hg]
      simp
    · rw [if_neg hg]
      simp
  · exact hgroup ⟨Element.group gp2 ch2, hmem, rfl⟩
  · exact updateColumnsGo_typeError [] hex hok

/-- Witness for C5: a nested group child makes the `Group` constructor
throw a `TypeError`, and a plain-string child makes `updateColumns`
throw a `TypeError`. -/
theorem c5_witness :
    (∃ msg, mkGroup ({ } : GroupProps Nat Int Int) [Element.group { } []]
        = Except.error (JsError.typeError msg)) ∧
    (∃ msg, Table.updateColumns ([Element.nonElement "string"] : List (Element Nat Int Int))
        = Except.error (JsError.typeError msg)) := by
  constructor
  · exact (c5_shape_validation_at_construction ({ } : GroupProps Nat Int Int)
      [Element.group { } []] []).2.2.1 { } [] (List.mem_singleton.mpr rfl)
  · refine (c5_shape_validation_at_construction ({ } : GroupProps Nat Int Int)
      [] ([Element.nonElement "string"])).2.2.2
      ⟨Element.nonElement "string", List.mem_singleton.mpr rfl, rfl⟩ ?_
    intro e he hv
    rw [List.mem_singleton] at he
    subst he
    simp [isValidTableChild] at hv

/-- Claim C6: columns and the sort registry are rebuilt exactly when the
`children` prop reference changes — an unchanged reference leaves the
whole state (columns, registry, sort id, direction) untouched, a changed
reference re-runs `updateColumns` over the new children starting from an
empty registry, and the sort id and direction state are untouched in
either case. -/
theorem c6_rebuild_exactly_on_children_change {κ ρ ν : Type}
    (st : TableState κ ρ ν) (oldC newC : ChildrenProp κ ρ ν) :
    (oldC.ref = newC.ref →
      Table.componentWillReceiveProps st oldC newC = Except.ok st) ∧
    (oldC.ref ≠ newC.ref →
      ∀ cols m, Table.updateColumns newC.elems = Except.ok (cols, m) →
        Table.componentWillReceiveProps st oldC newC
          = Except.ok { st with columns := cols, sortMap := m }) ∧
    (Table.updateColumns newC.elems = updateColumnsGo ([] : SortMap κ ρ ν) newC.elems) ∧
    (∀ st2, Table.componentWillReceiveProps st oldC newC = Except.ok st2 →
      st2.sort = st.sort ∧ st2.descending = st.descending) := by
  refine ⟨fun h => ?_, fun h cols m hm => ?_, rfl, fun st2 h2 => ?_⟩
  · simp [Table.componentWillReceiveProps, h]
  · simp only [Table.componentWillReceiveProps, if_pos h, hm, except_bind_ok]
  · by_cases h : oldC.ref ≠ newC.ref
    · simp only [Table.componentWillReceiveProps, if_pos h] at h2
      cases hm : Table.updateColumns newC.elems with
      | error e =>
        rw [hm] at h2
        simp [except_bind_error] at h2
      | ok p =>
        rw [hm] at h2
        simp only [except_bind_ok, Except.ok.injEq] at h2
        subst h2
        exact ⟨rfl, rfl⟩
    · simp only [Table.componentWillReceiveProps, if_neg h, Except.ok.injEq] at h2
      subst h2
      exact ⟨rfl, rfl⟩

/-- Witness for C6: an unchanged children reference keeps the state; a
changed reference rebuilds columns and registry from the new children. -/
theorem c6_witness :
    Table.componentWillReceiveProps c6State ⟨0, []⟩ ⟨0, []⟩ = Except.ok c6State ∧
    Table.componentWillReceiveProps c6State ⟨0, [Element.column c1ColProps]⟩ ⟨1, []⟩
      = Except.ok { c6State with columns := [], sortMap := [] } :=
  ⟨(c6_rebuild_exactly_on_children_change c6State ⟨0, []⟩ ⟨0, []⟩).1 rfl,
   (c6_rebuild_exactly_on_children_change c6State ⟨0, [Element.column c1ColProps]⟩
      ⟨1, []⟩).2.1 (by decide) [] [] rfl⟩

/-- Claim C1 (code-bug evaluation): running `updateColumns` over a
sortable column (id `"c"`) and a sortable group (id `"g"`, with the
required comparator) succeeds, and the resulting registry contains the
column under `"c"` but has no entry for `"g"` at all — the group is
silently dropped because `Group.registerSortColumns` tests the undefined
instance field `this.sortId` instead of `this.props.sortId`. -/
theorem c1_group_missing_from_registry :
    Table.updateColumns c1Children
      = Except.ok
          ([ColumnOrGroup.col ⟨c1ColProps⟩,
            ColumnOrGroup.grp ⟨c1GroupProps, [⟨c1InnerColProps⟩]⟩],
           [("c", ColumnOrGroup.col ⟨c1ColProps⟩)]) ∧
    ([("c", ColumnOrGroup.col ⟨c1ColProps⟩)] : SortMap Nat Int Int).lookup "g" = none ∧
    ([("c", ColumnOrGroup.col ⟨c1ColProps⟩)] : SortMap Nat Int Int).lookup "c"
      = some (ColumnOrGroup.col ⟨c1ColProps⟩) :=
  ⟨rfl, rfl, rfl⟩

/-- Claim C3: `sortedDataIndexes` returns a permutation of all dataset
indexes/keys — in original order when the current sort id is not
registered in the registry, and ordered by the registered entity's
comparator on the corresponding rows (with the current `descending` flag)
when it is registered and the induced relation is total and transitive. -/
theorem c3_sortedDataIndexes_order {κ ρ ν : Type} [DecidableEq κ] [Inhabited ρ]
    (data : List (κ × ρ)) (sortMap : SortMap κ ρ ν) (sort : Option String)
    (descending : Bool) :
    (Table.sortedDataIndexes data sortMap sort descending).Perm (data.map Prod.fst) ∧
    (sortMap.lookup (jsKey sort) = none →
      Table.sortedDataIndexes data sortMap sort descending = data.map Prod.fst) ∧
    (∀ x, sortMap.lookup (jsKey sort) = some x →
      (∀ a b : κ, cmpRel data x descending a b ∨ cmpRel data x descending b a) →
      (∀ a b c : κ, cmpRel data x descending a b → cmpRel data x descending b c →
        cmpRel data x descending a c) →
      (Table.sortedDataIndexes data sortMap sort descending).Sorted
        (cmpRel data x descending)) := by
  refine ⟨?_, fun h => ?_, fun x hx htot htrans => ?_⟩
  · cases hx : sortMap.lookup (jsKey sort) with
    | none =>
      simp only [Table.sortedDataIndexes, hx]
      exact List.Perm.refl _
    | some x =>
      simp only [Table.sortedDataIndexes, hx]
      exact List.perm_insertionSort _ _
  · simp only [Table.sortedDataIndexes, h]
  · haveI : IsTotal κ (cmpRel data x descending) := ⟨htot⟩
    haveI : IsTrans κ (cmpRel data x descending) := ⟨fun a b c => htrans a b c⟩
    simp only [Table.sortedDataIndexes, hx]
    exact List.sorted_insertionSort _ _

/-- Witness for C3 on the concrete dataset `3, 1, 2`: the order by the
registered `"v"` column is a sorted permutation, and an unregistered sort
id keeps the original order. -/
theorem c3_witness :
    (Table.sortedDataIndexes c3Data c3Map (some "v") false).Perm (c3Data.map Prod.fst) ∧
    (Table.sortedDataIndexes c3Data c3Map (some "v") false).Sorted
      (cmpRel c3Data (ColumnOrGroup.col ⟨c3ColProps⟩) false) ∧
    Table.sortedDataIndexes c3Data c3Map (some "zzz") false = c3Data.map Prod.fst := by
  have htot : ∀ a b : Nat,
      cmpRel c3Data (ColumnOrGroup.col ⟨c3ColProps⟩) false a b ∨
      cmpRel c3Data (ColumnOrGroup.col ⟨c3ColProps⟩) false b a := by
    intro a b
    simp [cmpRel, ColumnOrGroup.sort, Column.sort, c3ColProps]
    omega
  have htrans : ∀ a b c : Nat,
      cmpRel c3Data (ColumnOrGroup.col ⟨c3ColProps⟩) false a b →
      cmpRel c3Data (ColumnOrGroup.col ⟨c3ColProps⟩) false b c →
      cmpRel c3Data (ColumnOrGroup.col ⟨c3ColProps⟩) false a c := by
    intro a b c
    simp [cmpRel, ColumnOrGroup.sort, Column.sort, c3ColProps]
    omega
  exact ⟨(c3_sortedDataIndexes_order c3Data c3Map (some "v") false).1,
    (c3_sortedDataIndexes_order c3Data c3Map (some "v") false).2.2
      (ColumnOrGroup.col ⟨c3ColProps⟩) rfl htot htrans,
    (c3_sortedDataIndexes_order c3Data c3Map (some "zzz") false).2.1 rfl⟩

/-- `mapIdxFrom` preserves length. -/
theorem mapIdxFrom_length (f : Nat → α → β) (i : Nat) (l : List α) :
    (mapIdxFrom f i l).length = l.length := by
  induction l generalizing i with
  | nil => rfl
  | cons a as ih => simp [mapIdxFrom, ih]

/-- The `j`-th entry of `mapIdxFrom f i l` is `f (i + j)` of the `j`-th
element. -/
theorem mapIdxFrom_getElem? (f : Nat → α → β) (i j : Nat) (l : List α) :
    (mapIdxFrom f i l)[j]? = (l[j]?).map (f (i + j)) := by
  induction l generalizing i j with
  | nil => simp [mapIdxFrom]
  | cons a as ih =>
    cases j with
    | zero => simp [mapIdxFrom]
    | succ j =>
      simp only [mapIdxFrom, List.getElem?_cons_succ, ih, Nat.add_succ, Nat.succ_add]

/-- A visible column rendered at top level (no `groupIndex`) produces a
header cell with `rowSpan = 2`. -/
theorem column_renderHeader_visible {κ ρ ν : Type} (c : Column κ ρ ν)
    (h : c.props.hidden = false) (ctx : SortCtx) (colIndex : Nat)
    (sort : Option String) (descending : Bool) :
    (c.renderHeader ctx colIndex sort descending none none).map
        (fun th => th.props.rowSpan) = some (some 2) := by
  by_cases hs : truthy c.props.sortId = true
  · simp [Column.renderHeader, h, hs]
  · rw [Bool.not_eq_true] at hs
    simp [Column.renderHeader, h, hs]

/-- The head cell of a group header carries
`colSpan = columns.length`, and the tail is the indexed render of the
child columns with the group's `subHeaderProps`. -/
theorem group_renderHeader_shape {κ ρ ν : Type} (g : Group κ ρ ν) (ctx : SortCtx)
    (colIndex : Nat) (sort : Option String) (descending : Bool) :
    ((g.renderHeader ctx colIndex sort descending).1).props.colSpan
      = some g.columns.length ∧
    (g.renderHeader ctx colIndex sort descending).2
      = mapIdxFrom (fun groupIndex c =>
          c.renderHeader ctx colIndex sort descending (some groupIndex)
            (some (g.props.subHeaderProps
              { colIndex := colIndex, groupIndex := some groupIndex,
                sort := c.isSorted sort, descending := descending })))
          0 g.columns := by
  constructor
  · by_cases hs : truthy g.props.sortId = true
    · simp [Group.renderHeader, hs]
    · rw [Bool.not_eq_true] at hs
      simp [Group.renderHeader, hs]
  · rfl

/-- Claim C10: a `hidden: true` column renders nothing — `renderHeader`
and `renderCell` both return `null` — yet it is still counted in its
parent group's header `colSpan` and still occupies its group index (the
group's sub-header entry list keeps a `null` slot at the hidden column's
index). -/
theorem c10_hidden_column_renders_nothing {κ ρ ν : Type} (c : Column κ ρ ν)
    (h : c.props.hidden = true) :
    (∀ (ctx : SortCtx) (colIndex : Nat) (sort : Option String) (descending : Bool)
      (groupIndex : Option Nat) (groupProps : Option ElemProps),
      c.renderHeader ctx colIndex sort descending groupIndex groupProps = none) ∧
    (∀ (row : ρ) (rowIndex : κ) (colIndex : Nat) (groupIndex : Option Nat)
      (groupProps : Option ElemProps),
      c.renderCell row rowIndex colIndex groupIndex groupProps = none) ∧
    (∀ (g : Group κ ρ ν) (ctx : SortCtx) (colIndex : Nat) (sort : Option String)
      (descending : Bool),
      ((g.renderHeader ctx colIndex sort descending).1).props.colSpan
        = some g.columns.length ∧
      (g.renderHeader ctx colIndex sort descending).2.length = g.columns.length ∧
      ∀ i : Nat, g.columns[i]? = some c →
        (g.renderHeader ctx colIndex sort descending).2[i]? = some none) := by
  refine ⟨fun ctx colIndex sort descending groupIndex groupProps => ?_,
    fun row rowIndex colIndex groupIndex groupProps => ?_,
    fun g ctx colIndex sort descending => ⟨(group_renderHeader_shape g ctx colIndex
      sort descending).1, ?_, fun i hi => ?_⟩⟩
  · simp [Column.renderHeader, h]
  · simp [Column.renderCell, h]
  · rw [(group_renderHeader_shape g ctx colIndex sort descending).2, mapIdxFrom_length]
  · rw [(group_renderHeader_shape g ctx colIndex sort descending).2,
      mapIdxFrom_getElem?, hi]
    simp [Column.renderHeader, h]

/-- Witness for C10: the hidden column of `c10Group` renders no header
and no cell, while the group's `colSpan` still counts both columns and
the hidden column keeps its slot (index 1) as a `null` entry. -/
theorem c10_witness :
    Column.renderHeader (⟨c10HiddenProps⟩ : Column Nat Int Int) sampleCtx 0 none false
        none none = none ∧
    Column.renderCell (⟨c10HiddenProps⟩ : Column Nat Int Int) 7 1 0 none none = none ∧
    ((c10Group.renderHeader sampleCtx 0 none false).1).props.colSpan = some 2 ∧
    (c10Group.renderHeader sampleCtx 0 none false).2[1]? = some none := by
  have h := c10_hidden_column_renders_nothing (⟨c10HiddenProps⟩ : Column Nat Int Int) rfl
  exact ⟨h.1 sampleCtx 0 none false none none, h.2.1 7 1 0 none none,
    (h.2.2 c10Group sampleCtx 0 none false).1,
    (h.2.2 c10Group sampleCtx 0 none false).2.2 1 rfl⟩

/-- Claim C2: the rendered header merges one top row with a two-row
layout for groups — the main row has one entry per top-level child;
every visible top-level column's cell appears there with `rowSpan = 2`
and contributes nothing to the sub-header row; every group contributes
one main-row cell with `colSpan` equal to its number of child columns,
its child columns' header cells forming its sub-header contribution (one
slot per child at the child's group index); and the sub-header row is
`null` exactly when the children produced no sub-header entries. -/
theorem c2_header_two_row_layout {κ ρ ν : Type} (ctx : SortCtx)
    (columns : List (ColumnOrGroup κ ρ ν))
    (trProps headerTrProps subHeaderTrProps : List (String × String)) :
    ((Table.renderMainHeader trProps headerTrProps
        (Table.renderHeaderCells ctx columns)).cells.length = columns.length) ∧
    (∀ (i : Nat) (c : Column κ ρ ν),
      columns[i]? = some (ColumnOrGroup.col c) → c.props.hidden = false →
      ∃ th,
        (Table.renderHeaderCells ctx columns)[i]? = some (HeaderResult.single (some th)) ∧
        (Table.renderMainHeader trProps headerTrProps
          (Table.renderHeaderCells ctx columns)).cells[i]? = some (some th) ∧
        th.props.rowSpan = some 2 ∧
        subRowCells (HeaderResult.single (some th)) = []) ∧
    (∀ (i : Nat) (g : Group κ ρ ν), columns[i]? = some (ColumnOrGroup.grp g) →
      ∃ th subs,
        (Table.renderHeaderCells ctx columns)[i]? = some (HeaderResult.multi th subs) ∧
        (Table.renderMainHeader trProps headerTrProps
          (Table.renderHeaderCells ctx columns)).cells[i]? = some (some th) ∧
        th.props.colSpan = some g.columns.length ∧
        subs.length = g.columns.length ∧
        subRowCells (HeaderResult.multi th subs) = subs ∧
        ∀ (j : Nat) (cc : Column κ ρ ν), g.columns[j]? = some cc →
          subs[j]? = some (cc.renderHeader ctx i ctx.sort ctx.descending (some j)
            (some (g.props.subHeaderProps
              { colIndex := i, groupIndex := some j,
                sort := cc.isSorted ctx.sort, descending := ctx.descending })))) ∧
    (Table.renderSubHeader trProps subHeaderTrProps (Table.renderHeaderCells ctx columns)
        = none ↔
      ((Table.renderHeaderCells ctx columns).map subRowCells).flatten = []) ∧
    (∀ hr, Table.renderSubHeader trProps subHeaderTrProps
        (Table.renderHeaderCells ctx columns) = some hr →
      hr.cells = ((Table.renderHeaderCells ctx columns).map subRowCells).flatten) := by
  have hcells : ∀ i : Nat, (Table.renderHeaderCells ctx columns)[i]?
      = (columns[i]?).map (fun c =>
          c.renderHeader ctx i ctx.sort ctx.descending) := by
    intro i
    simp only [Table.renderHeaderCells, mapIdxFrom_getElem?, Nat.zero_add]
  have hmain : (Table.renderMainHeader trProps headerTrProps
        (Table.renderHeaderCells ctx columns)).cells
      = (Table.renderHeaderCells ctx columns).map mainRowCell := rfl
  refine ⟨?_, fun i c hi hvis => ?_, fun i g hi => ?_, ?_, fun hr h => ?_⟩
  · rw [hmain, List.length_map, Table.renderHeaderCells, mapIdxFrom_length]
  · obtain ⟨th, hth, hspan⟩ :=
      Option.map_eq_some'.mp
        (column_renderHeader_visible c hvis ctx i ctx.sort ctx.descending)
    have h1 : (Table.renderHeaderCells ctx columns)[i]?
        = some (HeaderResult.single (some th)) := by
      rw [hcells i, hi]
      simp [ColumnOrGroup.renderHeader, hth]
    refine ⟨th, h1, ?_, hspan, rfl⟩
    rw [hmain, List.getElem?_map, h1]
    rfl
  · obtain ⟨hspan, htail⟩ := group_renderHeader_shape g ctx i ctx.sort ctx.descending
    have h1 : (Table.renderHeaderCells ctx columns)[i]?
        = some (HeaderResult.multi (g.renderHeader ctx i ctx.sort ctx.descending).1
            (g.renderHeader ctx i ctx.sort ctx.descending).2) := by
      rw [hcells i, hi]
      rfl
    refine ⟨(g.renderHeader ctx i ctx.sort ctx.descending).1,
      (g.renderHeader ctx i ctx.sort ctx.descending).2, h1, ?_, hspan, ?_, rfl, ?_⟩
    · rw [hmain, List.getElem?_map, h1]
      rfl
    · rw [htail, mapIdxFrom_length]
    · intro j cc hj
      rw [htail, mapIdxFrom_getElem?, hj, Nat.zero_add]
      rfl
  · simp only [Table.renderSubHeader]
    constructor
    · intro h
      by_cases hl :
          (((Table.renderHeaderCells ctx columns).map subRowCells).flatten).length = 0
      · exact List.length_eq_zero.mp hl
      · rw [if_neg hl] at h
        exact absurd h (by simp)
    · intro h
      have hl : (((Table.renderHeaderCells ctx columns).map subRowCells).flatten).length
          = 0 := by
        rw [h]
        rfl
      rw [if_pos hl]
  · simp only [Table.renderSubHeader] at h
    by_cases hl :
        (((Table.renderHeaderCells ctx columns).map subRowCells).flatten).length = 0
    · rw [if_pos hl] at h
      exact absurd h (by simp)
    · rw [if_neg hl] at h
      injection h with h2
      rw [← h2]

/-- Witness for C2 on a table with one visible column and one two-column
group: the main row has two entries, the column's cell has `rowSpan = 2`,
the group's cell has `colSpan = 2`, and the sub-header row is present. -/
theorem c2_witness :
    (Table.renderMainHeader [] [] (Table.renderHeaderCells sampleCtx c2Columns)).cells.length
        = c2Columns.length ∧
    (∃ th, (Table.renderHeaderCells sampleCtx c2Columns)[0]?
        = some (HeaderResult.single (some th)) ∧ th.props.rowSpan = some 2) ∧
    (∃ th subs, (Table.renderHeaderCells sampleCtx c2Columns)[1]?
        = some (HeaderResult.multi th subs) ∧
      th.props.colSpan = some c2Group.columns.length ∧ subs.length = 2) ∧
    Table.renderSubHeader [] [] (Table.renderHeaderCells sampleCtx c2Columns) ≠ none := by
  have h := c2_header_two_row_layout sampleCtx c2Columns [] [] []
  refine ⟨h.1, ?_, ?_, ?_⟩
  · obtain ⟨th, h1, _, h3, _⟩ := h.2.1 0 ⟨c2ColProps⟩ rfl rfl
    exact ⟨th, h1, h3⟩
  · obtain ⟨th, subs, h1, _, h3, h4, _⟩ := h.2.2.1 1 c2Group rfl
    exact ⟨th, subs, h1, h3, h4⟩
  · intro hnone
    have hempty := h.2.2.2.1.mp hnone
    exact absurd hempty (by decide)

end TrueTable
